import Mathlib

/-!
Shallow embedding of the exercise-tracker REST service (src/server.js).

The repository contains three near-identical copies of the same Express
server concatenated in one file.  The exercise and logs handlers are
identical across the copies; the create-user handler differs (copy 1
answers a missing username with a plain `res.json` error body, copies 2
and 3 with `res.status(400)`), so both variants are embedded.

Modelling conventions:
  - request body / query fields are `Option String` (absent = `none`),
    matching the urlencoded body parser which yields strings;
  - JavaScript truthiness on such a field is `otruthy` (absent or empty
    string is falsy, everything else truthy);
  - a JavaScript `Date` value is `JsDate`: a civil calendar day
    (year, month 1-12, day) plus the milliseconds elapsed in that day;
    date comparison is lexicographic, which on civil data agrees with
    the millisecond order of JavaScript dates;
  - `parseInt` is `jsParseIntStr` (trim, optional sign, leading decimal
    digits, NaN = `none`);
  - `new Date(string)` on a query parameter is `jsParseDateStr`
    (ISO `yyyy-mm-dd`; anything else is an Invalid Date = `none`);
  - the MongoDB cursor `.limit(n)` is `mongoLimit`: `0` means no cap and
    a negative argument caps by its absolute value (single batch), per
    the documented behaviour of the store;
  - an Invalid Date used as a `$gte`/`$lte` bound is modelled from the
    spec as a silently permissive (matches everything) bound, since the
    store driver is an external collaborator not present in the sources.
-/

/-- The character with code 32, written this way to keep literals simple. -/
def spaceChar : Char := Char.ofNat 32

/-- The ASCII minus sign. -/
def dashChar : Char := Char.ofNat 45

/-- A JavaScript date value: civil calendar day plus time of day. -/
structure JsDate where
  year : Int
  month : Nat
  day : Nat
  msOfDay : Nat
deriving Repr, DecidableEq

/-- A stored user document (collection `User`). -/
structure User where
  _id : String
  username : String
deriving Repr, DecidableEq

/-- A stored exercise document (collection `Exercise`). -/
structure Exercise where
  user_id : String
  description : String
  duration : Int
  date : JsDate
deriving Repr, DecidableEq

/-- The document store: the two collections used by the service. -/
structure Store where
  users : List User
  exercises : List Exercise
deriving Repr, DecidableEq

/-- Model of `User.findById`. -/
def findUser (st : Store) (id : String) : Option User :=
  st.users.find? (fun u => u._id == id)

/-- JavaScript truthiness of an optional string field: `undefined` and the
empty string are falsy, any other string is truthy. -/
def otruthy : Option String → Bool
  | none => false
  | some s => s != ""

/-- The truthy content of an optional query parameter: `some s` exactly
when the parameter is present and nonempty. -/
def qtruthy : Option String → Option String
  | none => none
  | some s => if s = "" then none else some s

/-- Value of a decimal digit character, `none` for non-digits. -/
def digitVal (c : Char) : Option Nat :=
  if c.isDigit then some (c.toNat - 48) else none

/-- The leading decimal digits of a character list, as numeric values. -/
def takeDigits (cs : List Char) : List Nat :=
  (cs.takeWhile Char.isDigit).map (fun c => c.toNat - 48)

/-- Value of a most-significant-first digit list. -/
def digitsToNat (ds : List Nat) : Nat :=
  ds.foldl (fun a d => 10 * a + d) 0

/-- Model of JavaScript `parseInt` on a string: skip whitespace, optional
sign, then leading decimal digits; `none` models `NaN`. -/
def jsParseIntStr (s : String) : Option Int :=
  let cs := s.data.dropWhile Char.isWhitespace
  match cs with
  | '-' :: rest =>
    match takeDigits rest with
    | [] => none
    | ds => some (-(digitsToNat ds : Int))
  | '+' :: rest =>
    match takeDigits rest with
    | [] => none
    | ds => some ((digitsToNat ds : Int))
  | _ =>
    match takeDigits cs with
    | [] => none
    | ds => some ((digitsToNat ds : Int))

/-- Model of `parseInt` applied to a possibly absent field
(`parseInt(undefined)` is `NaN`). -/
def jsParseIntOpt : Option String → Option Int
  | none => none
  | some s => jsParseIntStr s

/-- Split a character list at every occurrence of `sep` (accumulator form). -/
def splitCh (sep : Char) : List Char → List Char → List (List Char)
  | [], acc => [acc.reverse]
  | c :: rest, acc =>
    if c = sep then acc.reverse :: splitCh sep rest []
    else splitCh sep rest (c :: acc)

/-- Split a character list at every occurrence of `sep`. -/
def splitChar (sep : Char) (cs : List Char) : List (List Char) :=
  splitCh sep cs []

/-- Digit values of a character list: `some` exactly when every character
is a decimal digit; the empty list maps to `some []`. -/
def charsDigits? : List Char → Option (List Nat)
  | [] => some []
  | c :: cs =>
    match digitVal c, charsDigits? cs with
    | some d, some ds => some (d :: ds)
    | _, _ => none

/-- Numeric value of a nonempty all-digit character list. -/
def charsToNat? (cs : List Char) : Option Nat :=
  match charsDigits? cs with
  | some (d :: ds) => some (digitsToNat (d :: ds))
  | _ => none

/-- Gregorian leap-year test. -/
def isLeap (y : Nat) : Bool :=
  if y % 4 = 0 ∧ (y % 100 ≠ 0 ∨ y % 400 = 0) then true else false

/-- Number of days in a month (month given 1-12). -/
def daysInMonth (y m : Nat) : Nat :=
  if m = 2 then (if isLeap y then 29 else 28)
  else if m = 4 ∨ m = 6 ∨ m = 9 ∨ m = 11 then 30
  else 31

/-- Model of `new Date(string)` on a query parameter: the ISO
`yyyy-mm-dd` form parses to midnight of that day, anything else is an
Invalid Date, modelled as `none`. -/
def jsParseDateStr (s : String) : Option JsDate :=
  match splitChar dashChar s.data with
  | [ys, ms, ds] =>
    match charsToNat? ys, charsToNat? ms, charsToNat? ds with
    | some y, some m, some d =>
      if ys.length = 4 ∧ 1 ≤ m ∧ m ≤ 12 ∧ 1 ≤ d ∧ d ≤ daysInMonth y m then
        some { year := (y : Int), month := m, day := d, msOfDay := 0 }
      else none
    | _, _, _ => none
  | _ => none

/-- Calendar (equivalently, millisecond) order on JavaScript dates. -/
def dateLe (a b : JsDate) : Bool :=
  if a.year < b.year then true
  else if b.year < a.year then false
  else if a.month < b.month then true
  else if b.month < a.month then false
  else if a.day < b.day then true
  else if b.day < a.day then false
  else decide (a.msOfDay ≤ b.msOfDay)

/-- Days since 1970-01-01 of a civil date (Gregorian, proleptic). -/
def daysFromCivil (year : Int) (month day : Nat) : Int :=
  let y : Int := if month ≤ 2 then year - 1 else year
  let m : Int := (month : Int)
  let era : Int := Int.fdiv y 400
  let yoe : Int := y - era * 400
  let doy : Int := (153 * (m + (if 2 < m then -3 else 9)) + 2) / 5 + (day : Int) - 1
  let doe : Int := yoe * 365 + yoe / 4 - yoe / 100 + doy
  era * 146097 + doe - 719468

/-- Index of the weekday of a date, 0 = Sunday. -/
def dayOfWeekIdx (d : JsDate) : Nat :=
  ((daysFromCivil d.year d.month d.day + 4) % 7).toNat

/-- Three-letter weekday names used by `Date.prototype.toDateString`. -/
def weekdayChars : Nat → List Char
  | 0 => ['S', 'u', 'n']
  | 1 => ['M', 'o', 'n']
  | 2 => ['T', 'u', 'e']
  | 3 => ['W', 'e', 'd']
  | 4 => ['T', 'h', 'u']
  | 5 => ['F', 'r', 'i']
  | 6 => ['S', 'a', 't']
  | _ => []

/-- Three-letter month names used by `Date.prototype.toDateString`
(month given 1-12). -/
def monthChars : Nat → List Char
  | 1 => ['J', 'a', 'n']
  | 2 => ['F', 'e', 'b']
  | 3 => ['M', 'a', 'r']
  | 4 => ['A', 'p', 'r']
  | 5 => ['M', 'a', 'y']
  | 6 => ['J', 'u', 'n']
  | 7 => ['J', 'u', 'l']
  | 8 => ['A', 'u', 'g']
  | 9 => ['S', 'e', 'p']
  | 10 => ['O', 'c', 't']
  | 11 => ['N', 'o', 'v']
  | 12 => ['D', 'e', 'c']
  | _ => []

/-- Month number of a three-letter month name. -/
def monthNum? (cs : List Char) : Option Nat :=
  if cs = ['J', 'a', 'n'] then some 1
  else if cs = ['F', 'e', 'b'] then some 2
  else if cs = ['M', 'a', 'r'] then some 3
  else if cs = ['A', 'p', 'r'] then some 4
  else if cs = ['M', 'a', 'y'] then some 5
  else if cs = ['J', 'u', 'n'] then some 6
  else if cs = ['J', 'u', 'l'] then some 7
  else if cs = ['A', 'u', 'g'] then some 8
  else if cs = ['S', 'e', 'p'] then some 9
  else if cs = ['O', 'c', 't'] then some 10
  else if cs = ['N', 'o', 'v'] then some 11
  else if cs = ['D', 'e', 'c'] then some 12
  else none

/-- Most-significant-last digit list of a natural number. -/
def natDigitsRev (n : Nat) : List Nat :=
  if h : n < 10 then [n]
  else n % 10 :: natDigitsRev (n / 10)
termination_by n
decreasing_by
  exact Nat.div_lt_self (by omega) (by omega)

/-- Most-significant-first digit list of a natural number. -/
def natDigits (n : Nat) : List Nat :=
  (natDigitsRev n).reverse

/-- Digit list of a year magnitude, zero padded to at least four digits
as `toDateString` does. -/
def pad4 (n : Nat) : List Nat :=
  if n < 10000 then [n / 1000, n / 100 % 10, n / 10 % 10, n % 10]
  else natDigits n

/-- Two zero padded digit characters of a day-of-month. -/
def pad2c (n : Nat) : List Char :=
  [n / 10 % 10, n % 10].map Nat.digitChar

/-- Year field of `toDateString`: sign for negative years, magnitude zero
padded to at least four digits. -/
def yearChars (y : Int) : List Char :=
  if y < 0 then dashChar :: (pad4 y.natAbs).map Nat.digitChar
  else (pad4 y.natAbs).map Nat.digitChar

/-- Parse the year field produced by `toDateString`. -/
def parseYear? (cs : List Char) : Option Int :=
  match cs with
  | [] => none
  | c :: rest =>
    if c = dashChar then
      match charsToNat? rest with
      | none => none
      | some n => some (-(n : Int))
    else
      match charsToNat? cs with
      | none => none
      | some n => some ((n : Int))

/-- Character list of `Date.prototype.toDateString`:
three-letter weekday, month name, zero padded day, year. -/
def dateChars (d : JsDate) : List Char :=
  weekdayChars (dayOfWeekIdx d) ++
    (spaceChar :: (monthChars d.month ++
      (spaceChar :: (pad2c d.day ++
        (spaceChar :: yearChars d.year)))))

/-- Model of `Date.prototype.toDateString` (locale independent form,
for example `Mon Jan 01 2024`). -/
def toDateString (d : JsDate) : String :=
  String.mk (dateChars d)

/-- Model of `new Date(string)` applied to a `toDateString` form:
weekday token, month name, day and year, giving midnight of that day. -/
def parseDateChars (cs : List Char) : Option JsDate :=
  match splitChar spaceChar cs with
  | [w, mo, dd, yy] =>
    if w.length = 3 then
      match monthNum? mo, charsToNat? dd, parseYear? yy with
      | some m, some d, some y =>
        some { year := y, month := m, day := d, msOfDay := 0 }
      | _, _, _ => none
    else none
  | _ => none

/-- String-level wrapper of `parseDateChars`. -/
def parseDateString (s : String) : Option JsDate :=
  parseDateChars s.data

/-- Entry of the `log` array of the logs envelope. -/
structure LogEntry where
  description : String
  duration : Int
  date : String
deriving Repr, DecidableEq

/-- Success body of the logs endpoint. -/
structure LogEnvelope where
  username : String
  count : Nat
  _id : String
  log : List LogEntry
deriving Repr, DecidableEq

/-- Response of `GET /api/users/:_id/logs`. -/
inductive LogsResp where
  | notFound (status : Nat) (message : String)
  | ok (status : Nat) (env : LogEnvelope)
deriving Repr, DecidableEq

/-- Whether a logs response is a success. -/
def LogsResp.isOk : LogsResp → Bool
  | .ok _ _ => true
  | _ => false

/-- Success body of the add-exercise endpoint. -/
structure ExerciseOut where
  username : String
  description : String
  duration : Int
  date : String
  _id : String
deriving Repr, DecidableEq

/-- Response of `POST /api/users/:_id/exercises`. -/
inductive ExResp where
  | badRequest (status : Nat) (error : String)
  | notFound (status : Nat) (message : String)
  | serverError (status : Nat) (error : String)
  | ok (status : Nat) (body : ExerciseOut)
deriving Repr, DecidableEq

/-- Whether an exercise response is the not-found error. -/
def ExResp.isNotFound : ExResp → Bool
  | .notFound _ _ => true
  | _ => false

/-- Whether an exercise response is an internal (500) error. -/
def ExResp.isServerError : ExResp → Bool
  | .serverError _ _ => true
  | _ => false

/-- Whether an exercise response is a success. -/
def ExResp.isOk : ExResp → Bool
  | .ok _ _ => true
  | _ => false

/-- Response of `POST /api/users`. -/
inductive UserResp where
  | errorBody (status : Nat) (error : String)
  | ok (status : Nat) (username : String) (_id : String)
deriving Repr, DecidableEq

/-- HTTP status carried by a create-user response. -/
def UserResp.status : UserResp → Nat
  | .errorBody s _ => s
  | .ok s _ _ => s

/-- Model of the MongoDB cursor `.limit(n)`: `0` means no cap, a negative
argument returns a single batch capped by its absolute value. -/
def mongoLimit (n : Int) (l : List Exercise) : List Exercise :=
  if n = 0 then l else l.take n.natAbs

/-- Lower ($gte) date bound check.  The outer `Option` is the presence of
the query parameter, the inner one the result of parsing it; a present
but unparseable bound (an Invalid Date) is modelled from the spec as
matching everything (silently permissive). -/
def lowerOk (b : Option (Option JsDate)) (ex : Exercise) : Bool :=
  match b with
  | none => true
  | some none => true
  | some (some d) => dateLe d ex.date

/-- Upper ($lte) date bound check; same conventions as `lowerOk`. -/
def upperOk (b : Option (Option JsDate)) (ex : Exercise) : Bool :=
  match b with
  | none => true
  | some none => true
  | some (some d) => dateLe ex.date d

/-- The query predicate built by the logs handler: always restricted to
the user, date bounds added only for truthy `from`/`to` parameters. -/
def logsFilterPred (id : String) (fromQ toQ : Option String) (ex : Exercise) : Bool :=
  ex.user_id == id
    && lowerOk ((qtruthy fromQ).map jsParseDateStr) ex
    && upperOk ((qtruthy toQ).map jsParseDateStr) ex

/-- The response mapper of the logs handler: each stored exercise maps to
`description`, `duration` and the `toDateString` form of its date. -/
def mapExercise (ex : Exercise) : LogEntry :=
  { description := ex.description
    duration := ex.duration
    date := toDateString ex.date }

/-- Model of `GET /api/users/:_id/logs` (identical in all three copies of
the server): 404 when the user is absent, otherwise the filtered and
capped log with `count` the number of returned entries. -/
def getLogs (st : Store) (id : String) (fromQ toQ limitQ : Option String) : LogsResp :=
  match findUser st id with
  | none => .notFound 404 "Could not find user"
  | some user =>
    let exercises :=
      mongoLimit ((jsParseIntOpt limitQ).getD 0)
        (st.exercises.filter (logsFilterPred id fromQ toQ))
    .ok 200
      { username := user.username
        count := exercises.length
        _id := user._id
        log := exercises.map mapExercise }

/-- Model of `POST /api/users/:_id/exercises` (identical in all three
copies): field validation, then user lookup, then persistence.  `now` is
the current time used when no date is supplied; a supplied but
unparseable date is an Invalid Date that fails the date cast of the store on save,
surfaced by the catch block as a 500. -/
def addExercise (st : Store) (now : JsDate) (id : String)
    (descriptionQ durationQ dateQ : Option String) : ExResp × Store :=
  if !otruthy descriptionQ || !otruthy durationQ then
    (.badRequest 400 "Description and duration are required fields.", st)
  else
    match jsParseIntOpt durationQ with
    | none => (.badRequest 400 "Duration must be a number.", st)
    | some durationNum =>
      match findUser st id with
      | none => (.notFound 404 "Could not find user", st)
      | some user =>
        let finish := fun (exDate : JsDate) =>
          let ex : Exercise :=
            { user_id := user._id
              description := descriptionQ.getD ("")
              duration := durationNum
              date := exDate }
          ((ExResp.ok 200
              { username := user.username
                description := ex.description
                duration := ex.duration
                date := toDateString exDate
                _id := user._id }),
           { st with exercises := st.exercises ++ [ex] })
        match qtruthy dateQ with
        | none => finish now
        | some ds =>
          match jsParseDateStr ds with
          | none => (.serverError 500 "Error saving exercise: cast to date failed", st)
          | some d => finish d

/-- Model of `POST /api/users`, first copy of the server (lines 81-99):
a missing username is answered by `res.json` with an error body, which
keeps the default 200 status. -/
def createUserV1 (st : Store) (newId : String) (usernameQ : Option String) : UserResp × Store :=
  if !otruthy usernameQ then (.errorBody 200 "Username is required", st)
  else
    let u : User := { _id := newId, username := usernameQ.getD ("") }
    (.ok 200 u.username u._id, { st with users := st.users ++ [u] })

/-- Model of `POST /api/users`, second and third copies of the server
(lines 288-306 and 485-504): a missing username is answered with
`res.status(400)` and the error body. -/
def createUserV2 (st : Store) (newId : String) (usernameQ : Option String) : UserResp × Store :=
  if !otruthy usernameQ then (.errorBody 400 "Username is required", st)
  else
    let u : User := { _id := newId, username := usernameQ.getD ("") }
    (.ok 200 u.username u._id, { st with users := st.users ++ [u] })

/-- A calendar date at midnight, for concrete test data. -/
def exD (y : Int) (m d : Nat) : JsDate :=
  { year := y, month := m, day := d, msOfDay := 0 }

/-- A demo user. -/
def demoU : User :=
  { _id := "u1", username := "alice" }

/-- A store with no documents. -/
def emptyStore : Store :=
  { users := [], exercises := [] }

/-- A store with one user and five exercises, one per month. -/
def store5 : Store :=
  { users := [demoU]
    exercises :=
      [ { user_id := "u1", description := "e1", duration := 10, date := exD 2024 1 1 }
      , { user_id := "u1", description := "e2", duration := 20, date := exD 2024 2 1 }
      , { user_id := "u1", description := "e3", duration := 30, date := exD 2024 3 1 }
      , { user_id := "u1", description := "e4", duration := 40, date := exD 2024 4 1 }
      , { user_id := "u1", description := "e5", duration := 50, date := exD 2024 5 1 } ] }

/-- A store with one user and the three exercises of the date
filter example of the spec (2024-01-01, 2024-02-01, 2024-03-01). -/
def store3 : Store :=
  { users := [demoU]
    exercises :=
      [ { user_id := "u1", description := "e1", duration := 10, date := exD 2024 1 1 }
      , { user_id := "u1", description := "e2", duration := 20, date := exD 2024 2 1 }
      , { user_id := "u1", description := "e3", duration := 30, date := exD 2024 3 1 } ] }

/-- Inversion of a successful logs response: the user exists and the
envelope is built from the filtered and capped exercise list. -/
theorem getLogs_ok_inv (st : Store) (id : String) (fq tq lq : Option String) (env : LogEnvelope)
    (h : getLogs st id fq tq lq = .ok 200 env) :
    ∃ user, findUser st id = some user ∧
      env.log = (mongoLimit ((jsParseIntOpt lq).getD 0)
          (st.exercises.filter (logsFilterPred id fq tq))).map mapExercise ∧
      env.count = (mongoLimit ((jsParseIntOpt lq).getD 0)
          (st.exercises.filter (logsFilterPred id fq tq))).length ∧
      env.username = user.username ∧ env._id = user._id := by
  unfold getLogs at h
  cases hfu : findUser st id with
  | none => rw [hfu] at h; exact LogsResp.noConfusion h
  | some user =>
    rw [hfu] at h
    injection h with h1 h2
    exact ⟨user, rfl, by rw [← h2], by rw [← h2], by rw [← h2], by rw [← h2]⟩

/-- C4: an add-exercise request with an absent or empty description or
duration is answered with the 400 MissingField error and the store is
left unchanged (validation happens before any mutation). -/
theorem addExercise_missing_field (st : Store) (now : JsDate) (id : String)
    (descriptionQ durationQ dateQ : Option String)
    (h : otruthy descriptionQ = false ∨ otruthy durationQ = false) :
    addExercise st now id descriptionQ durationQ dateQ =
      (.badRequest 400 "Description and duration are required fields.", st) := by
  unfold addExercise
  rcases h with h | h <;> simp [h]

/-- Witness of `addExercise_missing_field` at an empty description. -/
theorem addExercise_missing_field_witness :
    otruthy (some ("")) = false ∧
      addExercise store5 (exD 2025 6 7) ("u1") (some ("")) (some ("30")) none =
        (.badRequest 400 "Description and duration are required fields.", store5) :=
  ⟨rfl, addExercise_missing_field store5 (exD 2025 6 7) ("u1")
    (some ("")) (some ("30")) none (Or.inl rfl)⟩

/-- C5 (amended): a create-user request with an absent or empty username
never persists a record and always carries an error body, but the status
is not uniform across the copies of the handler in the repository: the first
copy answers 200 with the error body, the second and third answer 400. -/
theorem createUser_missing_username (st : Store) (newId : String) (usernameQ : Option String)
    (h : otruthy usernameQ = false) :
    createUserV1 st newId usernameQ = (.errorBody 200 "Username is required", st)
  ∧ createUserV2 st newId usernameQ = (.errorBody 400 "Username is required", st) := by
  constructor <;> simp [createUserV1, createUserV2, h]

/-- Witness of `createUser_missing_username` at an empty username. -/
theorem createUser_missing_username_witness :
    otruthy (some ("")) = false ∧
      (createUserV1 emptyStore ("id1") (some ("")) = (.errorBody 200 "Username is required", emptyStore)
        ∧ createUserV2 emptyStore ("id1") (some ("")) = (.errorBody 400 "Username is required", emptyStore)) :=
  ⟨rfl, createUser_missing_username emptyStore ("id1") (some ("")) rfl⟩

/-- Counterexample to C5 as stated: on a missing username the first copy
of the create-user handler (src/server.js lines 81-99) answers with the
default 200 status carrying an error body, not with a 400 client error. -/
theorem createUserV1_status200_cex :
    createUserV1 emptyStore ("id1") none = (.errorBody 200 "Username is required", emptyStore)
  ∧ UserResp.status (createUserV1 emptyStore ("id1") none).fst = 200
  ∧ (200 : Nat) ≠ 400 :=
  ⟨rfl, rfl, by decide⟩

/-- C6: an add-exercise request whose duration is present but does not
parse as an integer is answered with the 400 InvalidNumber error, and a
request is accepted only if its duration parses as an integer. -/
theorem addExercise_duration_parse (st : Store) (now : JsDate) (id : String)
    (descriptionQ durationQ dateQ : Option String) :
    (otruthy descriptionQ = true → otruthy durationQ = true →
      jsParseIntOpt durationQ = none →
      addExercise st now id descriptionQ durationQ dateQ =
        (.badRequest 400 "Duration must be a number.", st))
  ∧ (∀ body st2, addExercise st now id descriptionQ durationQ dateQ = (.ok 200 body, st2) →
      ∃ n, jsParseIntOpt durationQ = some n) := by
  constructor
  · intro h1 h2 h3
    unfold addExercise
    simp [h1, h2, h3]
  · intro body st2 h
    unfold addExercise at h
    split at h
    · exact absurd (congrArg Prod.fst h) (by simp)
    · split at h
      · exact absurd (congrArg Prod.fst h) (by simp)
      · rename_i n hn
        exact ⟨n, hn⟩

/-- Witness of `addExercise_duration_parse` at the unparseable duration
`abc` and at an accepted request. -/
theorem addExercise_duration_parse_witness :
    otruthy (some ("run")) = true ∧ otruthy (some ("abc")) = true
  ∧ jsParseIntOpt (some ("abc")) = none
  ∧ addExercise store5 (exD 2025 6 7) ("u1") (some ("run")) (some ("abc")) none =
      (.badRequest 400 "Duration must be a number.", store5) :=
  ⟨rfl, rfl, rfl,
    (addExercise_duration_parse store5 (exD 2025 6 7) ("u1")
      (some ("run")) (some ("abc")) none).1 rfl rfl rfl⟩

/-- C7: the validator places no bound on the duration: with an existing
user, a nonempty description and a duration that parses to zero or a
negative integer, the exercise is created, persisted and returned. -/
theorem addExercise_accepts_nonpositive_duration (st : Store) (now : JsDate)
    (id ds dus : String) (user : User) (n : Int)
    (hu : findUser st id = some user) (hds : ds ≠ "")
    (hn : jsParseIntStr dus = some n) (_hnp : n ≤ 0) :
    addExercise st now id (some ds) (some dus) none =
      (.ok 200 { username := user.username, description := ds, duration := n,
                 date := toDateString now, _id := user._id },
       { st with exercises := st.exercises ++
           [{ user_id := user._id, description := ds, duration := n, date := now }] }) := by
  have hdus : dus ≠ "" := by
    intro he
    rw [he] at hn
    exact Option.noConfusion hn
  unfold addExercise
  simp [otruthy, hds, hdus, jsParseIntOpt, hn, hu, qtruthy]

/-- Witness of `addExercise_accepts_nonpositive_duration` at duration 0. -/
theorem addExercise_accepts_nonpositive_duration_witness :
    findUser store5 ("u1") = some demoU ∧ ("run" : String) ≠ ""
  ∧ jsParseIntStr ("0") = some 0 ∧ (0 : Int) ≤ 0
  ∧ addExercise store5 (exD 2025 6 7) ("u1") (some ("run")) (some ("0")) none =
      (.ok 200 { username := demoU.username, description := "run", duration := 0,
                 date := toDateString (exD 2025 6 7), _id := demoU._id },
       { store5 with exercises := store5.exercises ++
           [{ user_id := demoU._id, description := "run", duration := 0, date := exD 2025 6 7 }] }) :=
  ⟨rfl, by decide, rfl, le_refl 0,
    addExercise_accepts_nonpositive_duration store5 (exD 2025 6 7)
      ("u1") ("run") ("0") demoU 0 rfl (by decide) rfl (le_refl 0)⟩

/-- C3 (amended): on a user identifier that matches no user, get-logs
always answers the 404 not-found error; add-exercise answers 404
provided the field validation passes and otherwise a 400 client error;
in every case nothing is persisted and the add-exercise response is
never a 500 internal error and never a success. -/
theorem missing_user_responses (st : Store) (id : String)
    (fq tq lq dq descq durq : Option String) (now : JsDate)
    (h : findUser st id = none) :
    getLogs st id fq tq lq = .notFound 404 "Could not find user"
  ∧ (otruthy descq = true → otruthy durq = true →
      (∃ n, jsParseIntOpt durq = some n) →
      addExercise st now id descq durq dq = (.notFound 404 "Could not find user", st))
  ∧ (addExercise st now id descq durq dq).snd = st
  ∧ ExResp.isServerError (addExercise st now id descq durq dq).fst = false
  ∧ ExResp.isOk (addExercise st now id descq durq dq).fst = false := by
  have key : addExercise st now id descq durq dq =
      (.badRequest 400 "Description and duration are required fields.", st)
    ∨ addExercise st now id descq durq dq = (.badRequest 400 "Duration must be a number.", st)
    ∨ addExercise st now id descq durq dq = (.notFound 404 "Could not find user", st) := by
    unfold addExercise
    split
    · exact Or.inl rfl
    · split
      · exact Or.inr (Or.inl rfl)
      · rw [h]
        exact Or.inr (Or.inr rfl)
  refine ⟨by simp [getLogs, h], ?_, ?_, ?_, ?_⟩
  · rintro h1 h2 ⟨n, hn⟩
    unfold addExercise
    simp [h1, h2, hn, h]
  · rcases key with k | k | k <;> rw [k]
  · rcases key with k | k | k <;> rw [k] <;> rfl
  · rcases key with k | k | k <;> rw [k] <;> rfl

/-- Witness of `missing_user_responses` on a store without the user. -/
theorem missing_user_responses_witness :
    findUser emptyStore ("u1") = none
  ∧ (getLogs emptyStore ("u1") none none none = .notFound 404 "Could not find user"
      ∧ (otruthy (some ("run")) = true → otruthy (some ("30")) = true →
          (∃ n, jsParseIntOpt (some ("30")) = some n) →
          addExercise emptyStore (exD 2025 6 7) ("u1") (some ("run")) (some ("30")) none =
            (.notFound 404 "Could not find user", emptyStore))
      ∧ (addExercise emptyStore (exD 2025 6 7) ("u1") (some ("run")) (some ("30")) none).snd = emptyStore
      ∧ ExResp.isServerError (addExercise emptyStore (exD 2025 6 7) ("u1")
          (some ("run")) (some ("30")) none).fst = false
      ∧ ExResp.isOk (addExercise emptyStore (exD 2025 6 7) ("u1")
          (some ("run")) (some ("30")) none).fst = false) :=
  ⟨rfl, missing_user_responses emptyStore ("u1") none none none none
    (some ("run")) (some ("30")) (exD 2025 6 7) rfl⟩

/-- Counterexample to C3 as stated: an add-exercise request naming a
nonexistent user but missing its fields is answered with the 400
MissingField error, not with the 404 not-found error, because the field
validation runs before the user lookup. -/
theorem addExercise_missing_user_cex :
    findUser emptyStore ("u1") = none
  ∧ addExercise emptyStore (exD 2025 6 7) ("u1") none none none =
      (.badRequest 400 "Description and duration are required fields.", emptyStore)
  ∧ ExResp.isNotFound (addExercise emptyStore (exD 2025 6 7) ("u1") none none none).fst = false :=
  ⟨rfl, rfl, rfl⟩

/-- C1 (amended): when the limit parameter is absent, zero or not
parseable, all matching records are returned; when it parses to a
nonzero integer the log is capped at the absolute value of that integer
(a negative limit caps by its absolute value); and `count` always equals
the length of the returned `log` array. -/
theorem getLogs_limit_spec (st : Store) (id : String) (fq tq lq : Option String)
    (env : LogEnvelope) (h : getLogs st id fq tq lq = .ok 200 env) :
    env.count = env.log.length
  ∧ ((jsParseIntOpt lq).getD 0 = 0 →
      env.log = (st.exercises.filter (logsFilterPred id fq tq)).map mapExercise)
  ∧ (∀ n : Int, jsParseIntOpt lq = some n → n ≠ 0 → env.log.length ≤ n.natAbs) := by
  obtain ⟨user, hu, hlog, hcount, -, -⟩ := getLogs_ok_inv st id fq tq lq env h
  refine ⟨?_, ?_, ?_⟩
  · rw [hlog, hcount, List.length_map]
  · intro h0
    rw [hlog, h0]
    simp [mongoLimit]
  · intro n hn hnz
    rw [hlog, List.length_map, hn]
    simp only [Option.getD_some]
    rw [mongoLimit, if_neg hnz, List.length_take]
    exact min_le_left _ _

/-- Envelope returned by the logs endpoint on `store5` with limit 2. -/
def envW1 : LogEnvelope :=
  { username := "alice", count := 2, _id := "u1"
    log := [ { description := "e1", duration := 10, date := "Mon Jan 01 2024" }
           , { description := "e2", duration := 20, date := "Thu Feb 01 2024" } ] }

/-- Witness of `getLogs_limit_spec`: limit 2 on a user with five
exercises returns exactly two entries and `count` is 2. -/
theorem getLogs_limit_spec_witness :
    getLogs store5 ("u1") none none (some ("2")) = .ok 200 envW1
  ∧ (envW1.count = envW1.log.length
      ∧ ((jsParseIntOpt (some ("2"))).getD 0 = 0 →
          envW1.log = (store5.exercises.filter (logsFilterPred ("u1") none none)).map mapExercise)
      ∧ (∀ n : Int, jsParseIntOpt (some ("2")) = some n → n ≠ 0 →
          envW1.log.length ≤ n.natAbs)) :=
  ⟨rfl, getLogs_limit_spec store5 ("u1") none none (some ("2")) envW1 rfl⟩

/-- Envelope returned by the logs endpoint on `store5` with limit -1. -/
def envNeg1 : LogEnvelope :=
  { username := "alice", count := 1, _id := "u1"
    log := [ { description := "e1", duration := 10, date := "Mon Jan 01 2024" } ] }

/-- Counterexample to C1 as stated: the limit `-1` parses as the nonzero
integer -1, yet the response contains one entry, so the number of
returned entries is not at most the parsed limit; the store caps a
negative limit by its absolute value instead. -/
theorem getLogs_negative_limit_cex :
    jsParseIntOpt (some ("-1")) = some (-1)
  ∧ ((-1 : Int) ≠ 0)
  ∧ getLogs store5 ("u1") none none (some ("-1")) = .ok 200 envNeg1
  ∧ envNeg1.log.length = 1
  ∧ ¬ ((envNeg1.log.length : Int) ≤ -1) :=
  ⟨rfl, by decide, rfl, rfl, by decide⟩

/-- C10: a present but empty `from`, `to` or `limit` query parameter
makes the logs handler behave exactly as if the parameter were absent:
the empty string is falsy, so no date bound is added, and `parseInt` of
the empty string is NaN, so no cap is applied. -/
theorem getLogs_empty_param_as_absent (st : Store) (id : String) (fq tq lq : Option String) :
    getLogs st id (some ("")) tq lq = getLogs st id none tq lq
  ∧ getLogs st id fq (some ("")) lq = getLogs st id fq none lq
  ∧ getLogs st id fq tq (some ("")) = getLogs st id fq tq none :=
  ⟨rfl, rfl, rfl⟩

/-- C2: the logs query is always restricted to the exercises of the user; a
present (parseable) `from` adds an inclusive lower bound, a present
(parseable) `to` an inclusive upper bound, and with neither present no
date restriction is applied, so exercises strictly outside the closed
interval are excluded and those on a boundary are included. -/
theorem getLogs_date_filter (st : Store) (id sf stq : String) (df dt : JsDate) :
    (sf ≠ "" → jsParseDateStr sf = some df →
      ∀ env, getLogs st id (some sf) none none = .ok 200 env →
        env.log = (st.exercises.filter
          (fun ex => ex.user_id == id && dateLe df ex.date)).map mapExercise)
  ∧ (stq ≠ "" → jsParseDateStr stq = some dt →
      ∀ env, getLogs st id none (some stq) none = .ok 200 env →
        env.log = (st.exercises.filter
          (fun ex => ex.user_id == id && dateLe ex.date dt)).map mapExercise)
  ∧ (sf ≠ "" → stq ≠ "" → jsParseDateStr sf = some df → jsParseDateStr stq = some dt →
      ∀ env, getLogs st id (some sf) (some stq) none = .ok 200 env →
        env.log = (st.exercises.filter
          (fun ex => ex.user_id == id && dateLe df ex.date && dateLe ex.date dt)).map mapExercise)
  ∧ (∀ env, getLogs st id none none none = .ok 200 env →
      env.log = (st.exercises.filter (fun ex => ex.user_id == id)).map mapExercise)
  ∧ (∀ fq tq lq env, getLogs st id fq tq lq = .ok 200 env →
      ∀ e ∈ env.log, ∃ ex, ex ∈ st.exercises ∧ ex.user_id = id ∧ e = mapExercise ex) := by
  refine ⟨?_, ?_, ?_, ?_, ?_⟩
  · intro hs hp env h
    obtain ⟨user, -, hlog, -, -, -⟩ := getLogs_ok_inv st id (some sf) none none env h
    rw [hlog]
    simp only [jsParseIntOpt, Option.getD_none]
    rw [mongoLimit, if_pos rfl]
    congr 1
    apply List.filter_congr
    intro ex _
    simp [logsFilterPred, qtruthy, hs, hp, lowerOk, upperOk]
  · intro hs hp env h
    obtain ⟨user, -, hlog, -, -, -⟩ := getLogs_ok_inv st id none (some stq) none env h
    rw [hlog]
    simp only [jsParseIntOpt, Option.getD_none]
    rw [mongoLimit, if_pos rfl]
    congr 1
    apply List.filter_congr
    intro ex _
    simp [logsFilterPred, qtruthy, hs, hp, lowerOk, upperOk]
  · intro hs1 hs2 hp1 hp2 env h
    obtain ⟨user, -, hlog, -, -, -⟩ := getLogs_ok_inv st id (some sf) (some stq) none env h
    rw [hlog]
    simp only [jsParseIntOpt, Option.getD_none]
    rw [mongoLimit, if_pos rfl]
    congr 1
    apply List.filter_congr
    intro ex _
    simp [logsFilterPred, qtruthy, hs1, hs2, hp1, hp2, lowerOk, upperOk]
  · intro env h
    obtain ⟨user, -, hlog, -, -, -⟩ := getLogs_ok_inv st id none none none env h
    rw [hlog]
    simp only [jsParseIntOpt, Option.getD_none]
    rw [mongoLimit, if_pos rfl]
    congr 1
    apply List.filter_congr
    intro ex _
    simp [logsFilterPred, qtruthy, lowerOk, upperOk]
  · intro fq tq lq env h e he
    obtain ⟨user, -, hlog, -, -, -⟩ := getLogs_ok_inv st id fq tq lq env h
    rw [hlog] at he
    obtain ⟨ex, hex, rfl⟩ := List.mem_map.mp he
    have hex2 : ex ∈ st.exercises.filter (logsFilterPred id fq tq) := by
      unfold mongoLimit at hex
      split at hex
      · exact hex
      · exact List.take_subset _ _ hex
    have hmem := List.mem_filter.mp hex2
    refine ⟨ex, hmem.1, ?_, rfl⟩
    have hb := hmem.2
    simp only [logsFilterPred, Bool.and_eq_true] at hb
    exact beq_iff_eq.mp hb.1.1

/-- Envelope of the date filter example of the spec on `store3`. -/
def envW2 : LogEnvelope :=
  { username := "alice", count := 1, _id := "u1"
    log := [ { description := "e2", duration := 20, date := "Thu Feb 01 2024" } ] }

/-- Witness of `getLogs_date_filter`: on exercises dated 2024-01-01,
2024-02-01 and 2024-03-01, the query from 2024-01-15 to 2024-02-15
returns only the 2024-02-01 entry. -/
theorem getLogs_date_filter_witness :
    ("2024-01-15" : String) ≠ "" ∧ ("2024-02-15" : String) ≠ ""
  ∧ jsParseDateStr ("2024-01-15") = some (exD 2024 1 15)
  ∧ jsParseDateStr ("2024-02-15") = some (exD 2024 2 15)
  ∧ getLogs store3 ("u1") (some ("2024-01-15")) (some ("2024-02-15")) none = .ok 200 envW2
  ∧ envW2.log = (store3.exercises.filter
      (fun ex => ex.user_id == "u1" && dateLe (exD 2024 1 15) ex.date
        && dateLe ex.date (exD 2024 2 15))).map mapExercise :=
  ⟨by decide, by decide, rfl, rfl, rfl,
    (getLogs_date_filter store3 ("u1") ("2024-01-15") ("2024-02-15")
        (exD 2024 1 15) (exD 2024 2 15)).2.2.1
      (by decide) (by decide) rfl rfl envW2 rfl⟩

/-- C8: a present `from` or `to` value that fails to parse as a date is
silently permissive: the handler behaves exactly as if the parameter
were absent, and with an existing user the request still succeeds. -/
theorem getLogs_unparseable_bound (st : Store) (id s : String) (fq tq lq : Option String)
    (user : User) (hs : s ≠ "") (hp : jsParseDateStr s = none) :
    getLogs st id (some s) tq lq = getLogs st id none tq lq
  ∧ getLogs st id fq (some s) lq = getLogs st id fq none lq
  ∧ (findUser st id = some user → ∃ env, getLogs st id (some s) tq lq = .ok 200 env) := by
  have hfrom : logsFilterPred id (some s) tq = logsFilterPred id none tq := by
    funext ex
    simp [logsFilterPred, qtruthy, hs, hp, lowerOk]
  have hto : ∀ fq2, logsFilterPred id fq2 (some s) = logsFilterPred id fq2 none := by
    intro fq2
    funext ex
    simp [logsFilterPred, qtruthy, hs, hp, upperOk]
  refine ⟨?_, ?_, ?_⟩
  · unfold getLogs
    rw [hfrom]
  · unfold getLogs
    rw [hto]
  · intro hu
    unfold getLogs
    rw [hu]
    exact ⟨_, rfl⟩

/-- Witness of `getLogs_unparseable_bound` at the value `garbage`. -/
theorem getLogs_unparseable_bound_witness :
    ("garbage" : String) ≠ "" ∧ jsParseDateStr ("garbage") = none
  ∧ (getLogs store5 ("u1") (some ("garbage")) none none = getLogs store5 ("u1") none none none
      ∧ getLogs store5 ("u1") none (some ("garbage")) none = getLogs store5 ("u1") none none none
      ∧ (findUser store5 ("u1") = some demoU →
          ∃ env, getLogs store5 ("u1") (some ("garbage")) none none = .ok 200 env)) :=
  ⟨by decide, rfl,
    getLogs_unparseable_bound store5 ("u1") ("garbage") none none none demoU (by decide) rfl⟩

/-- Parsing a rendered decimal digit gives the digit back. -/
theorem digitVal_digitChar : ∀ d < 10, digitVal (Nat.digitChar d) = some d := by decide

/-- Rendered decimal digits are not the space character. -/
theorem digitChar_ne_space : ∀ d < 10, Nat.digitChar d ≠ spaceChar := by decide

/-- Rendered decimal digits are not the minus sign. -/
theorem digitChar_ne_dash : ∀ d < 10, Nat.digitChar d ≠ dashChar := by decide

/-- Appending a digit multiplies the accumulated value by ten. -/
theorem digitsToNat_append (l : List Nat) (d : Nat) :
    digitsToNat (l ++ [d]) = 10 * digitsToNat l + d := by
  simp [digitsToNat, List.foldl_append]

/-- All entries of `natDigitsRev` are digits. -/
theorem natDigitsRev_lt (n : Nat) : ∀ d ∈ natDigitsRev n, d < 10 := by
  rw [natDigitsRev]
  split
  · rename_i h
    intro d hd
    simp at hd
    omega
  · rename_i h
    intro d hd
    rcases List.mem_cons.mp hd with h1 | h1
    · have := Nat.mod_lt n (show 0 < 10 by omega)
      omega
    · exact natDigitsRev_lt (n / 10) d h1
termination_by n
decreasing_by exact Nat.div_lt_self (by omega) (by omega)

/-- The digit expansion is correct. -/
theorem digitsToNat_rev (n : Nat) : digitsToNat (natDigitsRev n).reverse = n := by
  rw [natDigitsRev]
  split
  · simp [digitsToNat]
  · rename_i h
    rw [List.reverse_cons, digitsToNat_append, digitsToNat_rev (n / 10)]
    omega
termination_by n
decreasing_by exact Nat.div_lt_self (by omega) (by omega)

/-- The digit expansion is never empty. -/
theorem natDigitsRev_ne_nil (n : Nat) : natDigitsRev n ≠ [] := by
  rw [natDigitsRev]
  split <;> simp

/-- Rendering digits as characters and reading them back is the
identity. -/
theorem charsDigits?_map_digitChar (ds : List Nat) (h : ∀ d ∈ ds, d < 10) :
    charsDigits? (ds.map Nat.digitChar) = some ds := by
  induction ds with
  | nil => rfl
  | cons d ds ih =>
    simp only [List.map_cons, charsDigits?]
    rw [digitVal_digitChar d (h d (by simp)),
        ih (fun x hx => h x (List.mem_cons_of_mem _ hx))]

/-- Reading back a nonempty rendered digit list gives its value. -/
theorem charsToNat?_map_digitChar (ds : List Nat) (hne : ds ≠ []) (h : ∀ d ∈ ds, d < 10) :
    charsToNat? (ds.map Nat.digitChar) = some (digitsToNat ds) := by
  cases ds with
  | nil => exact absurd rfl hne
  | cons d ds =>
    rw [charsToNat?, charsDigits?_map_digitChar _ h]

/-- All entries of the padded year expansion are digits. -/
theorem pad4_lt (n : Nat) : ∀ d ∈ pad4 n, d < 10 := by
  rw [pad4]
  split
  · rename_i h
    intro d hd
    simp at hd
    rcases hd with rfl | rfl | rfl | rfl <;> omega
  · intro d hd
    exact natDigitsRev_lt n d (List.mem_reverse.mp hd)

/-- The padded year expansion has the right value. -/
theorem digitsToNat_pad4 (n : Nat) : digitsToNat (pad4 n) = n := by
  rw [pad4]
  split
  · rename_i h
    simp [digitsToNat]
    omega
  · exact digitsToNat_rev n

/-- The padded year expansion is never empty. -/
theorem pad4_ne_nil (n : Nat) : pad4 n ≠ [] := by
  rw [pad4]
  split
  · simp
  · simpa [natDigits] using natDigitsRev_ne_nil n

/-- Parsing the rendered year field gives the year back. -/
theorem parseYear?_yearChars (y : Int) : parseYear? (yearChars y) = some y := by
  rw [yearChars]
  split
  · rename_i h
    show parseYear? (dashChar :: (pad4 y.natAbs).map Nat.digitChar) = some y
    simp only [parseYear?, ite_true]
    rw [charsToNat?_map_digitChar _ (pad4_ne_nil _) (pad4_lt _)]
    simp only [digitsToNat_pad4, Option.some.injEq]
    omega
  · rename_i h
    obtain ⟨d, rest, heq⟩ : ∃ d rest, pad4 y.natAbs = d :: rest := by
      cases hp : pad4 y.natAbs with
      | nil => exact absurd hp (pad4_ne_nil _)
      | cons d rest => exact ⟨d, rest, rfl⟩
    rw [heq]
    simp only [List.map_cons, parseYear?]
    have hd10 : d < 10 := pad4_lt _ d (by rw [heq]; simp)
    rw [if_neg (digitChar_ne_dash d hd10), ← List.map_cons, ← heq,
        charsToNat?_map_digitChar _ (pad4_ne_nil _) (pad4_lt _)]
    simp only [digitsToNat_pad4, Option.some.injEq]
    omega

/-- Parsing the rendered two-digit day field gives the day back. -/
theorem charsToNat?_pad2c (n : Nat) (h : n ≤ 99) : charsToNat? (pad2c n) = some n := by
  rw [pad2c, charsToNat?_map_digitChar]
  · simp [digitsToNat]
    omega
  · simp
  · intro d hd
    simp at hd
    rcases hd with rfl | rfl <;> omega

/-- Rendered digit characters contain no space. -/
theorem digits_map_ne_space (ds : List Nat) (h : ∀ d ∈ ds, d < 10) :
    ∀ c ∈ ds.map Nat.digitChar, c ≠ spaceChar := by
  intro c hc
  obtain ⟨d, hd, rfl⟩ := List.mem_map.mp hc
  exact digitChar_ne_space d (h d hd)

/-- The rendered day field contains no space. -/
theorem pad2c_ne_space (n : Nat) : ∀ c ∈ pad2c n, c ≠ spaceChar := by
  apply digits_map_ne_space
  intro d hd
  simp at hd
  rcases hd with rfl | rfl <;> omega

/-- The rendered year field contains no space. -/
theorem yearChars_ne_space (y : Int) : ∀ c ∈ yearChars y, c ≠ spaceChar := by
  rw [yearChars]
  split
  · intro c hc
    rcases List.mem_cons.mp hc with rfl | hc2
    · decide
    · exact digits_map_ne_space _ (pad4_lt _) c hc2
  · exact digits_map_ne_space _ (pad4_lt _)

/-- Month names contain no space. -/
theorem monthChars_ne_space : ∀ m < 13, ∀ c ∈ monthChars m, c ≠ spaceChar := by decide

/-- Weekday names contain no space. -/
theorem weekdayChars_ne_space : ∀ k < 7, ∀ c ∈ weekdayChars k, c ≠ spaceChar := by decide

/-- Weekday names have three letters. -/
theorem weekdayChars_len : ∀ k < 7, (weekdayChars k).length = 3 := by decide

/-- Month-name lookup inverts the month-name table. -/
theorem monthNum?_monthChars : ∀ m < 13, 1 ≤ m → monthNum? (monthChars m) = some m := by decide

/-- Splitting eats a leading separator-free word. -/
theorem splitCh_sep_append (sep : Char) (w : List Char) :
    ∀ rest acc, (∀ c ∈ w, c ≠ sep) →
      splitCh sep (w ++ sep :: rest) acc = (acc.reverse ++ w) :: splitCh sep rest [] := by
  induction w with
  | nil =>
    intro rest acc _
    simp [splitCh]
  | cons c w ih =>
    intro rest acc hw
    simp only [List.cons_append, splitCh, List.append_eq]
    rw [if_neg (hw c (by simp)), ih rest (c :: acc) (fun x hx => hw x (by simp [hx]))]
    simp

/-- Splitting a separator-free word returns it whole. -/
theorem splitCh_no_sep (sep : Char) (w : List Char) :
    ∀ acc, (∀ c ∈ w, c ≠ sep) → splitCh sep w acc = [acc.reverse ++ w] := by
  induction w with
  | nil =>
    intro acc _
    simp [splitCh]
  | cons c w ih =>
    intro acc hw
    simp only [splitCh]
    rw [if_neg (hw c (by simp)), ih (c :: acc) (fun x hx => hw x (by simp [hx]))]
    simp

/-- Splitting the rendered date string recovers its four fields. -/
theorem splitChar_dateChars (w mo dd yy : List Char)
    (hw : ∀ c ∈ w, c ≠ spaceChar) (hmo : ∀ c ∈ mo, c ≠ spaceChar)
    (hdd : ∀ c ∈ dd, c ≠ spaceChar) (hyy : ∀ c ∈ yy, c ≠ spaceChar) :
    splitChar spaceChar
        (w ++ (spaceChar :: (mo ++ (spaceChar :: (dd ++ (spaceChar :: yy)))))) =
      [w, mo, dd, yy] := by
  rw [splitChar, splitCh_sep_append _ _ _ _ hw, splitCh_sep_append _ _ _ _ hmo,
      splitCh_sep_append _ _ _ _ hdd, splitCh_no_sep _ _ _ hyy]
  simp

/-- The weekday index is below seven. -/
theorem dayOfWeekIdx_lt (d : JsDate) : dayOfWeekIdx d < 7 := by
  rw [dayOfWeekIdx]
  omega

/-- Validity of the civil data carried by a JavaScript date. -/
def dateValid (d : JsDate) : Prop :=
  1 ≤ d.month ∧ d.month ≤ 12 ∧ 1 ≤ d.day ∧ d.day ≤ 31

/-- C9: the date string the response mapper produces for an exercise,
re-parsed as a date, denotes the same calendar day as the stored
exercise date; the time of day is not preserved. -/
theorem mapExercise_date_roundtrip (ex : Exercise) (h : dateValid ex.date) :
    parseDateString ((mapExercise ex).date) =
      some { year := ex.date.year, month := ex.date.month,
             day := ex.date.day, msOfDay := 0 } := by
  obtain ⟨h1, h2, h3, h4⟩ := h
  have hk := dayOfWeekIdx_lt ex.date
  have hsplit : splitChar spaceChar (dateChars ex.date) =
      [weekdayChars (dayOfWeekIdx ex.date), monthChars ex.date.month,
       pad2c ex.date.day, yearChars ex.date.year] := by
    rw [dateChars]
    exact splitChar_dateChars _ _ _ _ (weekdayChars_ne_space _ hk)
      (monthChars_ne_space ex.date.month (by omega)) (pad2c_ne_space _)
      (yearChars_ne_space _)
  show parseDateChars (dateChars ex.date) = _
  simp only [parseDateChars, hsplit, weekdayChars_len _ hk,
    monthNum?_monthChars ex.date.month (by omega) h1,
    charsToNat?_pad2c ex.date.day (by omega), parseYear?_yearChars, if_true]

/-- Witness of `mapExercise_date_roundtrip` at 2024-01-01. -/
theorem mapExercise_date_roundtrip_witness :
    dateValid (exD 2024 1 1)
  ∧ parseDateString ((mapExercise
        { user_id := "u1", description := "run", duration := 60,
          date := exD 2024 1 1 }).date) =
      some { year := 2024, month := 1, day := 1, msOfDay := 0 } :=
  ⟨⟨by decide, by decide, by decide, by decide⟩,
    mapExercise_date_roundtrip
      { user_id := "u1", description := "run", duration := 60, date := exD 2024 1 1 }
      ⟨by decide, by decide, by decide, by decide⟩⟩
